import Mathlib

/-!
Verification of the FitScore scoring engine of `src/04_calculate_fit_score.py`
(Club América player-fit calculator).

The scoring engine is shallowly embedded over `ℚ` (for the clamped-ratio
dimension scores, weakness analysis, gap filling and ranking, which are plain
field arithmetic, comparisons and list processing) and over `ℝ` (for the
cosine-similarity DNA match, which involves square roots).

Conventions of the embedding:
* metric records and benchmark tables are total maps from the fifteen metric
  names used by the six dimension formulas to rationals (`Metrics`);
* for claims about missing dictionary keys, a player record is a partial map
  `MetricKey → Option ℚ` and dictionary access is modelled in the `Except`
  monad, failing with the looked-up key's name exactly as a Python `KeyError`
  does, in the source's access order;
* for claims about division by a zero benchmark, division is modelled checked
  (`Except`), failing like Python scalar division by zero does; under the
  hypothesis that all benchmark entries are positive the checked computation
  agrees with the total `ℚ` one;
* the weakness mapping is an association list in insertion order, matching the
  iteration order of a Python dict built by inserting while iterating
  `DNA_DIMENSIONS`;
* Python's `sorted` (a stable sort) is modelled by `List.mergeSort`.
-/

namespace FitScore

/-- The six DNA dimensions, in the order of the source's `DNA_DIMENSIONS`. -/
inductive Dimension where
  | progression
  | creation
  | finishing
  | pressing
  | possession
  | dribbling
deriving DecidableEq, Repr

/-- The source's `DNA_DIMENSIONS` list (iteration order of the pipeline). -/
def DNA_DIMENSIONS : List Dimension :=
  [.progression, .creation, .finishing, .pressing, .possession, .dribbling]

/-- The fifteen metric keys read from a player record / benchmark table by
`calculate_player_dna_score`. -/
inductive MetricKey where
  | progressive_passes_p90
  | progressive_carries_p90
  | touches_att_third_p90
  | xA_p90
  | shot_assists_p90
  | key_passes_p90
  | xG_p90
  | shots_p90
  | pressures_p90
  | tackles_p90
  | interceptions_p90
  | pass_completion_pct
  | dribbles_p90
  | dribbles_successful_p90
  | dribble_success_pct
deriving DecidableEq, Repr

/-- The Python string for each metric key (the text a `KeyError` would name). -/
def keyName : MetricKey → String
  | .progressive_passes_p90 => "progressive_passes_p90"
  | .progressive_carries_p90 => "progressive_carries_p90"
  | .touches_att_third_p90 => "touches_att_third_p90"
  | .xA_p90 => "xA_p90"
  | .shot_assists_p90 => "shot_assists_p90"
  | .key_passes_p90 => "key_passes_p90"
  | .xG_p90 => "xG_p90"
  | .shots_p90 => "shots_p90"
  | .pressures_p90 => "pressures_p90"
  | .tackles_p90 => "tackles_p90"
  | .interceptions_p90 => "interceptions_p90"
  | .pass_completion_pct => "pass_completion_pct"
  | .dribbles_p90 => "dribbles_p90"
  | .dribbles_successful_p90 => "dribbles_successful_p90"
  | .dribble_success_pct => "dribble_success_pct"

/-- A total metric record: every metric key present, rational valued.  Used
both for a player's record and for the benchmark table. -/
def Metrics : Type := MetricKey → ℚ

/-- All metric values are non-negative (the data model's validity condition on
player records). -/
def Metrics.Nonneg (m : Metrics) : Prop := ∀ k, 0 ≤ m k

/-- All metric values are strictly positive (the validity condition on the
benchmark table). -/
def Metrics.Pos (m : Metrics) : Prop := ∀ k, 0 < m k

/-- Direct embedding of `calculate_player_dna_score` (lines 86-141 of
`04_calculate_fit_score.py`): a fixed weighted sum of benchmark-relative
ratios, each ratio clamped to at most `1.0` before weighting.  The `finishing`
shot-quality sub-term is added only when the player has shots, exactly as in
the source's `if player['shots_p90'] > 0` guard. -/
def calculate_player_dna_score (player benchmarks : Metrics) :
    Dimension → ℚ
  | .progression =>
      min (player .progressive_passes_p90 / benchmarks .progressive_passes_p90) 1 * 40
        + min (player .progressive_carries_p90 / benchmarks .progressive_carries_p90) 1 * 30
        + min (player .touches_att_third_p90 / benchmarks .touches_att_third_p90) 1 * 30
  | .creation =>
      min (player .xA_p90 / benchmarks .xA_p90) 1 * 50
        + min (player .shot_assists_p90 / benchmarks .shot_assists_p90) 1 * 30
        + min (player .key_passes_p90 / benchmarks .key_passes_p90) 1 * 20
  | .finishing =>
      min (player .xG_p90 / benchmarks .xG_p90) 1 * 60
        + (if 0 < player .shots_p90 then
            min ((player .xG_p90 / player .shots_p90)
                / (benchmarks .xG_p90 / benchmarks .shots_p90)) 1 * 40
          else 0)
  | .pressing =>
      min (player .pressures_p90 / benchmarks .pressures_p90) 1 * 60
        + min (player .tackles_p90 / benchmarks .tackles_p90) 1 * 20
        + min (player .interceptions_p90 / benchmarks .interceptions_p90) 1 * 20
  | .possession =>
      min (player .pass_completion_pct / benchmarks .pass_completion_pct) 1 * 60
        + min (player .touches_att_third_p90 / benchmarks .touches_att_third_p90) 1 * 40
  | .dribbling =>
      min (player .dribbles_p90 / benchmarks .dribbles_p90) 1 * 40
        + min (player .dribbles_successful_p90 / benchmarks .dribbles_successful_p90) 1 * 35
        + min (player .dribble_success_pct / benchmarks .dribble_success_pct) 1 * 25

/-- Embedding of `calculate_player_dna_vector` (lines 144-156): the dimension
score for each of the six dimensions. -/
def calculate_player_dna_vector (player benchmarks : Metrics) :
    Dimension → ℚ :=
  fun d => calculate_player_dna_score player benchmarks d

/-- A clamped sub-term `min (p / b) 1` lies in `[0, 1]` when the player value
is non-negative and the benchmark positive. -/
lemma clamp_mem_unit {p b : ℚ} (hp : 0 ≤ p) (hb : 0 < b) :
    0 ≤ min (p / b) 1 ∧ min (p / b) 1 ≤ 1 :=
  ⟨le_min (div_nonneg hp hb.le) zero_le_one, min_le_right _ _⟩

/-- A weighted clamped sub-term `min (p / b) 1 * w` lies in `[0, w]` when the
player value is non-negative, the benchmark positive and the weight
non-negative. -/
lemma term_bounds {p b : ℚ} (hp : 0 ≤ p) (hb : 0 < b) {w : ℚ} (hw : 0 ≤ w) :
    0 ≤ min (p / b) 1 * w ∧ min (p / b) 1 * w ≤ w := by
  obtain ⟨h0, h1⟩ := clamp_mem_unit hp hb
  refine ⟨mul_nonneg h0 hw, ?_⟩
  calc min (p / b) 1 * w ≤ 1 * w := mul_le_mul_of_nonneg_right h1 hw
    _ = w := one_mul w

/-- Any weighted clamped sub-term is at most its weight, with no hypothesis on
the player value (the clamp `min (· , 1)` alone caps it). -/
lemma term_le_weight (x : ℚ) {w : ℚ} (hw : 0 ≤ w) : min x 1 * w ≤ w := by
  calc min x 1 * w ≤ 1 * w := mul_le_mul_of_nonneg_right (min_le_right _ _) hw
    _ = w := one_mul w

/-- The all-ones metric record, a concrete valid player record and a concrete
valid benchmark table. -/
def onesMetrics : Metrics := fun _ => 1

/-- C1: for every dimension, every player record with non-negative required
values and every benchmark table with strictly positive required values, each
sub-term `min (player_value / benchmark_value) 1 * weight` of
`calculate_player_dna_score` lies in `[0, weight]`, and the returned dimension
score lies in `[0, 100]`. -/
theorem dimension_score_bounds (player benchmarks : Metrics)
    (hp : player.Nonneg) (hb : benchmarks.Pos) :
    (∀ d, 0 ≤ calculate_player_dna_score player benchmarks d ∧
        calculate_player_dna_score player benchmarks d ≤ 100) ∧
    (∀ pv bv w : ℚ, 0 ≤ pv → 0 < bv → 0 ≤ w →
        0 ≤ min (pv / bv) 1 * w ∧ min (pv / bv) 1 * w ≤ w) := by
  refine ⟨?_, fun pv bv w h1 h2 h3 => term_bounds h1 h2 h3⟩
  intro d
  cases d with
  | progression =>
      have t1 := term_bounds (hp .progressive_passes_p90) (hb .progressive_passes_p90)
        (by norm_num : (0:ℚ) ≤ 40)
      have t2 := term_bounds (hp .progressive_carries_p90) (hb .progressive_carries_p90)
        (by norm_num : (0:ℚ) ≤ 30)
      have t3 := term_bounds (hp .touches_att_third_p90) (hb .touches_att_third_p90)
        (by norm_num : (0:ℚ) ≤ 30)
      simp only [calculate_player_dna_score]
      constructor <;> linarith [t1.1, t1.2, t2.1, t2.2, t3.1, t3.2]
  | creation =>
      have t1 := term_bounds (hp .xA_p90) (hb .xA_p90) (by norm_num : (0:ℚ) ≤ 50)
      have t2 := term_bounds (hp .shot_assists_p90) (hb .shot_assists_p90)
        (by norm_num : (0:ℚ) ≤ 30)
      have t3 := term_bounds (hp .key_passes_p90) (hb .key_passes_p90)
        (by norm_num : (0:ℚ) ≤ 20)
      simp only [calculate_player_dna_score]
      constructor <;> linarith [t1.1, t1.2, t2.1, t2.2, t3.1, t3.2]
  | finishing =>
      have t1 := term_bounds (hp .xG_p90) (hb .xG_p90) (by norm_num : (0:ℚ) ≤ 60)
      simp only [calculate_player_dna_score]
      by_cases hs : 0 < player .shots_p90
      · have t2 := term_bounds (div_nonneg (hp .xG_p90) (hp .shots_p90))
          (div_pos (hb .xG_p90) (hb .shots_p90)) (by norm_num : (0:ℚ) ≤ 40)
        simp only [if_pos hs]
        constructor <;> linarith [t1.1, t1.2, t2.1, t2.2]
      · simp only [if_neg hs]
        constructor <;> linarith [t1.1, t1.2]
  | pressing =>
      have t1 := term_bounds (hp .pressures_p90) (hb .pressures_p90)
        (by norm_num : (0:ℚ) ≤ 60)
      have t2 := term_bounds (hp .tackles_p90) (hb .tackles_p90)
        (by norm_num : (0:ℚ) ≤ 20)
      have t3 := term_bounds (hp .interceptions_p90) (hb .interceptions_p90)
        (by norm_num : (0:ℚ) ≤ 20)
      simp only [calculate_player_dna_score]
      constructor <;> linarith [t1.1, t1.2, t2.1, t2.2, t3.1, t3.2]
  | possession =>
      have t1 := term_bounds (hp .pass_completion_pct) (hb .pass_completion_pct)
        (by norm_num : (0:ℚ) ≤ 60)
      have t2 := term_bounds (hp .touches_att_third_p90) (hb .touches_att_third_p90)
        (by norm_num : (0:ℚ) ≤ 40)
      simp only [calculate_player_dna_score]
      constructor <;> linarith [t1.1, t1.2, t2.1, t2.2]
  | dribbling =>
      have t1 := term_bounds (hp .dribbles_p90) (hb .dribbles_p90)
        (by norm_num : (0:ℚ) ≤ 40)
      have t2 := term_bounds (hp .dribbles_successful_p90) (hb .dribbles_successful_p90)
        (by norm_num : (0:ℚ) ≤ 35)
      have t3 := term_bounds (hp .dribble_success_pct) (hb .dribble_success_pct)
        (by norm_num : (0:ℚ) ≤ 25)
      simp only [calculate_player_dna_score]
      constructor <;> linarith [t1.1, t1.2, t2.1, t2.2, t3.1, t3.2]

/-- Witness for C1 at the all-ones player record and benchmark table. -/
theorem dimension_score_bounds_witness :
    (onesMetrics.Nonneg ∧ onesMetrics.Pos) ∧
    (∀ d, 0 ≤ calculate_player_dna_score onesMetrics onesMetrics d ∧
        calculate_player_dna_score onesMetrics onesMetrics d ≤ 100) :=
  ⟨⟨fun _ => zero_le_one, fun _ => zero_lt_one⟩,
    (dimension_score_bounds onesMetrics onesMetrics
      (fun _ => zero_le_one) (fun _ => zero_lt_one)).1⟩

/-- Every dimension score is at most 100, for every player record and every
benchmark table whatsoever: each sub-term is clamped at its weight, and the
weights of each dimension sum to 100. -/
lemma dna_score_le_100 (player benchmarks : Metrics) (d : Dimension) :
    calculate_player_dna_score player benchmarks d ≤ 100 := by
  cases d with
  | progression =>
      have t1 := term_le_weight (player .progressive_passes_p90 / benchmarks .progressive_passes_p90)
        (by norm_num : (0:ℚ) ≤ 40)
      have t2 := term_le_weight (player .progressive_carries_p90 / benchmarks .progressive_carries_p90)
        (by norm_num : (0:ℚ) ≤ 30)
      have t3 := term_le_weight (player .touches_att_third_p90 / benchmarks .touches_att_third_p90)
        (by norm_num : (0:ℚ) ≤ 30)
      simp only [calculate_player_dna_score]
      linarith
  | creation =>
      have t1 := term_le_weight (player .xA_p90 / benchmarks .xA_p90) (by norm_num : (0:ℚ) ≤ 50)
      have t2 := term_le_weight (player .shot_assists_p90 / benchmarks .shot_assists_p90)
        (by norm_num : (0:ℚ) ≤ 30)
      have t3 := term_le_weight (player .key_passes_p90 / benchmarks .key_passes_p90)
        (by norm_num : (0:ℚ) ≤ 20)
      simp only [calculate_player_dna_score]
      linarith
  | finishing =>
      have t1 := term_le_weight (player .xG_p90 / benchmarks .xG_p90) (by norm_num : (0:ℚ) ≤ 60)
      simp only [calculate_player_dna_score]
      by_cases hs : 0 < player .shots_p90
      · have t2 := term_le_weight ((player .xG_p90 / player .shots_p90)
            / (benchmarks .xG_p90 / benchmarks .shots_p90)) (by norm_num : (0:ℚ) ≤ 40)
        simp only [if_pos hs]
        linarith
      · simp only [if_neg hs]
        linarith
  | pressing =>
      have t1 := term_le_weight (player .pressures_p90 / benchmarks .pressures_p90)
        (by norm_num : (0:ℚ) ≤ 60)
      have t2 := term_le_weight (player .tackles_p90 / benchmarks .tackles_p90)
        (by norm_num : (0:ℚ) ≤ 20)
      have t3 := term_le_weight (player .interceptions_p90 / benchmarks .interceptions_p90)
        (by norm_num : (0:ℚ) ≤ 20)
      simp only [calculate_player_dna_score]
      linarith
  | possession =>
      have t1 := term_le_weight (player .pass_completion_pct / benchmarks .pass_completion_pct)
        (by norm_num : (0:ℚ) ≤ 60)
      have t2 := term_le_weight (player .touches_att_third_p90 / benchmarks .touches_att_third_p90)
        (by norm_num : (0:ℚ) ≤ 40)
      simp only [calculate_player_dna_score]
      linarith
  | dribbling =>
      have t1 := term_le_weight (player .dribbles_p90 / benchmarks .dribbles_p90)
        (by norm_num : (0:ℚ) ≤ 40)
      have t2 := term_le_weight (player .dribbles_successful_p90 / benchmarks .dribbles_successful_p90)
        (by norm_num : (0:ℚ) ≤ 35)
      have t3 := term_le_weight (player .dribble_success_pct / benchmarks .dribble_success_pct)
        (by norm_num : (0:ℚ) ≤ 25)
      simp only [calculate_player_dna_score]
      linarith

/-- C8 counterexample: there is no valid input at all on which
`calculate_player_dna_score` returns a value above 100 — the clamping of every
sub-term makes 100 the exact ceiling, so the claim that some valid record
exceeding the benchmark everywhere scores above 100 is false. -/
theorem no_dna_score_exceeds_100 :
    ¬ ∃ (player benchmarks : Metrics) (d : Dimension),
        player.Nonneg ∧ benchmarks.Pos ∧
        100 < calculate_player_dna_score player benchmarks d := by
  rintro ⟨player, benchmarks, d, -, -, h⟩
  exact absurd h (not_lt.mpr (dna_score_le_100 player benchmarks d))

/-- C8 (amended): dimension scores never exceed 100; a player who meets the
benchmark on every weighted sub-metric — in particular a player whose metric
record coincides with the benchmark table — attains exactly 100 in every
dimension. -/
theorem dna_score_ceiling_is_100 (benchmarks : Metrics) (hb : benchmarks.Pos) :
    (∀ player d, calculate_player_dna_score player benchmarks d ≤ 100) ∧
    (∀ d, calculate_player_dna_score benchmarks benchmarks d = 100) := by
  refine ⟨fun player d => dna_score_le_100 player benchmarks d, ?_⟩
  have hone : ∀ k, benchmarks k / benchmarks k = 1 :=
    fun k => div_self (ne_of_gt (hb k))
  intro d
  cases d with
  | finishing =>
      have hq : (benchmarks .xG_p90 / benchmarks .shots_p90)
          / (benchmarks .xG_p90 / benchmarks .shots_p90) = 1 :=
        div_self (ne_of_gt (div_pos (hb .xG_p90) (hb .shots_p90)))
      simp only [calculate_player_dna_score, hone, hq, if_pos (hb .shots_p90)]
      norm_num
  | progression => simp only [calculate_player_dna_score, hone]; norm_num
  | creation => simp only [calculate_player_dna_score, hone]; norm_num
  | pressing => simp only [calculate_player_dna_score, hone]; norm_num
  | possession => simp only [calculate_player_dna_score, hone]; norm_num
  | dribbling => simp only [calculate_player_dna_score, hone]; norm_num

/-- Witness for the amended C8 at the all-ones benchmark table. -/
theorem dna_score_ceiling_is_100_witness :
    onesMetrics.Pos ∧
    (∀ d, calculate_player_dna_score onesMetrics onesMetrics d = 100) :=
  ⟨fun _ => zero_lt_one,
    (dna_score_ceiling_is_100 onesMetrics (fun _ => zero_lt_one)).2⟩

/-- The message of a Python scalar division by zero. -/
def dzMsg : String := "ZeroDivisionError: float division by zero"

/-- Checked division, modelling Python scalar `/`: dividing by zero raises a
`ZeroDivisionError` instead of producing a value. -/
def qdiv (a b : ℚ) : Except String ℚ :=
  if b = 0 then .error dzMsg else .ok (a / b)

/-- Embedding of `calculate_player_dna_score` with Python's runtime division
semantics made explicit: every `/` in the source is the checked `qdiv`, and
the divisions are sequenced in the source's evaluation order.  The source has
no guard on benchmark values, so a zero benchmark surfaces here as an
`Except.error`. -/
def calculate_player_dna_score_div (player benchmarks : Metrics) :
    Dimension → Except String ℚ
  | .progression => do
      let r1 ← qdiv (player .progressive_passes_p90) (benchmarks .progressive_passes_p90)
      let r2 ← qdiv (player .progressive_carries_p90) (benchmarks .progressive_carries_p90)
      let r3 ← qdiv (player .touches_att_third_p90) (benchmarks .touches_att_third_p90)
      return min r1 1 * 40 + min r2 1 * 30 + min r3 1 * 30
  | .creation => do
      let r1 ← qdiv (player .xA_p90) (benchmarks .xA_p90)
      let r2 ← qdiv (player .shot_assists_p90) (benchmarks .shot_assists_p90)
      let r3 ← qdiv (player .key_passes_p90) (benchmarks .key_passes_p90)
      return min r1 1 * 50 + min r2 1 * 30 + min r3 1 * 20
  | .finishing => do
      let r1 ← qdiv (player .xG_p90) (benchmarks .xG_p90)
      let xg := min r1 1 * 60
      if 0 < player .shots_p90 then
        let psq ← qdiv (player .xG_p90) (player .shots_p90)
        let bsq ← qdiv (benchmarks .xG_p90) (benchmarks .shots_p90)
        let r2 ← qdiv psq bsq
        return xg + min r2 1 * 40
      else
        return xg + 0
  | .pressing => do
      let r1 ← qdiv (player .pressures_p90) (benchmarks .pressures_p90)
      let r2 ← qdiv (player .tackles_p90) (benchmarks .tackles_p90)
      let r3 ← qdiv (player .interceptions_p90) (benchmarks .interceptions_p90)
      return min r1 1 * 60 + min r2 1 * 20 + min r3 1 * 20
  | .possession => do
      let r1 ← qdiv (player .pass_completion_pct) (benchmarks .pass_completion_pct)
      let r2 ← qdiv (player .touches_att_third_p90) (benchmarks .touches_att_third_p90)
      return min r1 1 * 60 + min r2 1 * 40
  | .dribbling => do
      let r1 ← qdiv (player .dribbles_p90) (benchmarks .dribbles_p90)
      let r2 ← qdiv (player .dribbles_successful_p90) (benchmarks .dribbles_successful_p90)
      let r3 ← qdiv (player .dribble_success_pct) (benchmarks .dribble_success_pct)
      return min r1 1 * 40 + min r2 1 * 35 + min r3 1 * 25

/-- When every benchmark entry is positive, the checked-division embedding
agrees with the total `ℚ` embedding: no division by zero can occur. -/
lemma score_div_agrees (player benchmarks : Metrics) (hb : benchmarks.Pos)
    (d : Dimension) :
    calculate_player_dna_score_div player benchmarks d =
      .ok (calculate_player_dna_score player benchmarks d) := by
  have hne : ∀ k, benchmarks k ≠ 0 := fun k => ne_of_gt (hb k)
  cases d with
  | finishing =>
      by_cases hs : 0 < player .shots_p90
      · have hsne : player .shots_p90 ≠ 0 := ne_of_gt hs
        have hbsq : benchmarks .xG_p90 / benchmarks .shots_p90 ≠ 0 :=
          ne_of_gt (div_pos (hb .xG_p90) (hb .shots_p90))
        simp [calculate_player_dna_score_div, calculate_player_dna_score, qdiv,
          hne, hsne, hbsq, hs, bind, Except.bind, Functor.map, Except.map, pure, Except.pure]
      · simp [calculate_player_dna_score_div, calculate_player_dna_score, qdiv,
          hne, hs, bind, Except.bind, Functor.map, Except.map, pure, Except.pure]
  | progression =>
      simp [calculate_player_dna_score_div, calculate_player_dna_score, qdiv, hne,
        bind, Except.bind, Functor.map, Except.map, pure, Except.pure]
  | creation =>
      simp [calculate_player_dna_score_div, calculate_player_dna_score, qdiv, hne,
        bind, Except.bind, Functor.map, Except.map, pure, Except.pure]
  | pressing =>
      simp [calculate_player_dna_score_div, calculate_player_dna_score, qdiv, hne,
        bind, Except.bind, Functor.map, Except.map, pure, Except.pure]
  | possession =>
      simp [calculate_player_dna_score_div, calculate_player_dna_score, qdiv, hne,
        bind, Except.bind, Functor.map, Except.map, pure, Except.pure]
  | dribbling =>
      simp [calculate_player_dna_score_div, calculate_player_dna_score, qdiv, hne,
        bind, Except.bind, Functor.map, Except.map, pure, Except.pure]

/-- A benchmark table whose `progressive_passes_p90` entry is zero and whose
other entries are one. -/
def zeroPPBench : Metrics :=
  fun k => if k = .progressive_passes_p90 then 0 else 1

/-- C7 counterexample: with a benchmark table whose required metric
`progressive_passes_p90` is 0, the `progression` dimension-score computation
aborts with a division error — it is not guarded, and no sub-term is replaced
by a neutral 0 contribution. -/
theorem zero_benchmark_not_guarded_cex :
    calculate_player_dna_score_div onesMetrics zeroPPBench .progression =
      .error dzMsg := rfl

/-- C7 (amended): the dimension-score computation has no division-by-zero
guard: for every dimension, a zero benchmark value for the dimension's first
accessed metric makes the computation abort with a `ZeroDivisionError` instead
of contributing 0 for that sub-term. -/
theorem zero_benchmark_aborts (player benchmarks : Metrics) :
    (benchmarks .progressive_passes_p90 = 0 →
      calculate_player_dna_score_div player benchmarks .progression = .error dzMsg) ∧
    (benchmarks .xA_p90 = 0 →
      calculate_player_dna_score_div player benchmarks .creation = .error dzMsg) ∧
    (benchmarks .xG_p90 = 0 →
      calculate_player_dna_score_div player benchmarks .finishing = .error dzMsg) ∧
    (benchmarks .pressures_p90 = 0 →
      calculate_player_dna_score_div player benchmarks .pressing = .error dzMsg) ∧
    (benchmarks .pass_completion_pct = 0 →
      calculate_player_dna_score_div player benchmarks .possession = .error dzMsg) ∧
    (benchmarks .dribbles_p90 = 0 →
      calculate_player_dna_score_div player benchmarks .dribbling = .error dzMsg) := by
  refine ⟨fun h => ?_, fun h => ?_, fun h => ?_, fun h => ?_, fun h => ?_, fun h => ?_⟩ <;>
    simp [calculate_player_dna_score_div, qdiv, h, bind, Except.bind, Functor.map,
      Except.map, pure, Except.pure]

/-- Witness for the amended C7 at a concrete zero benchmark. -/
theorem zero_benchmark_aborts_witness :
    zeroPPBench .progressive_passes_p90 = 0 ∧
    calculate_player_dna_score_div onesMetrics zeroPPBench .progression =
      .error dzMsg :=
  ⟨rfl, (zero_benchmark_aborts onesMetrics zeroPPBench).1 rfl⟩

/-- A player record as a Python dictionary: each metric key may be absent. -/
def PlayerDict : Type := MetricKey → Option ℚ

/-- Dictionary access `player[k]`: returns the value, or fails with a
`KeyError` naming exactly the looked-up key. -/
def dGet (p : PlayerDict) (k : MetricKey) : Except String ℚ :=
  match p k with
  | some v => .ok v
  | none => .error (keyName k)

/-- Embedding of `calculate_player_dna_score` over a dictionary player record:
dictionary accesses are sequenced in the source's evaluation order and the
first absent key aborts the computation, as a Python `KeyError` does.  (The
benchmark table is total here: the claim under study concerns keys missing
from the player record.) -/
def calculate_player_dna_score_dict (p : PlayerDict) (b : Metrics) :
    Dimension → Except String ℚ
  | .progression => do
      let v1 ← dGet p .progressive_passes_p90
      let v2 ← dGet p .progressive_carries_p90
      let v3 ← dGet p .touches_att_third_p90
      return min (v1 / b .progressive_passes_p90) 1 * 40
        + min (v2 / b .progressive_carries_p90) 1 * 30
        + min (v3 / b .touches_att_third_p90) 1 * 30
  | .creation => do
      let v1 ← dGet p .xA_p90
      let v2 ← dGet p .shot_assists_p90
      let v3 ← dGet p .key_passes_p90
      return min (v1 / b .xA_p90) 1 * 50
        + min (v2 / b .shot_assists_p90) 1 * 30
        + min (v3 / b .key_passes_p90) 1 * 20
  | .finishing => do
      let xg ← dGet p .xG_p90
      let sh ← dGet p .shots_p90
      return min (xg / b .xG_p90) 1 * 60
        + (if 0 < sh then
            min ((xg / sh) / (b .xG_p90 / b .shots_p90)) 1 * 40
          else 0)
  | .pressing => do
      let v1 ← dGet p .pressures_p90
      let v2 ← dGet p .tackles_p90
      let v3 ← dGet p .interceptions_p90
      return min (v1 / b .pressures_p90) 1 * 60
        + min (v2 / b .tackles_p90) 1 * 20
        + min (v3 / b .interceptions_p90) 1 * 20
  | .possession => do
      let v1 ← dGet p .pass_completion_pct
      let v2 ← dGet p .touches_att_third_p90
      return min (v1 / b .pass_completion_pct) 1 * 60
        + min (v2 / b .touches_att_third_p90) 1 * 40
  | .dribbling => do
      let v1 ← dGet p .dribbles_p90
      let v2 ← dGet p .dribbles_successful_p90
      let v3 ← dGet p .dribble_success_pct
      return min (v1 / b .dribbles_p90) 1 * 40
        + min (v2 / b .dribbles_successful_p90) 1 * 35
        + min (v3 / b .dribble_success_pct) 1 * 25

/-- Embedding of `calculate_player_dna_vector` over a dictionary player
record: the six dimensions are computed in `DNA_DIMENSIONS` order and the
first failure aborts the whole build. -/
def calculate_player_dna_vector_dict (p : PlayerDict) (b : Metrics) :
    Except String (Dimension → ℚ) := do
  let s1 ← calculate_player_dna_score_dict p b .progression
  let s2 ← calculate_player_dna_score_dict p b .creation
  let s3 ← calculate_player_dna_score_dict p b .finishing
  let s4 ← calculate_player_dna_score_dict p b .pressing
  let s5 ← calculate_player_dna_score_dict p b .possession
  let s6 ← calculate_player_dna_score_dict p b .dribbling
  return fun d => match d with
    | .progression => s1
    | .creation => s2
    | .finishing => s3
    | .pressing => s4
    | .possession => s5
    | .dribbling => s6

/-- The player-record keys in the order the build accesses them (dimension
loop order, then source line order within each dimension).  The repeat of
`touches_att_third_p90` mirrors its second access in `possession`. -/
def playerAccessOrder : List MetricKey :=
  [.progressive_passes_p90, .progressive_carries_p90, .touches_att_third_p90,
   .xA_p90, .shot_assists_p90, .key_passes_p90,
   .xG_p90, .shots_p90,
   .pressures_p90, .tackles_p90, .interceptions_p90,
   .pass_completion_pct, .touches_att_third_p90,
   .dribbles_p90, .dribbles_successful_p90, .dribble_success_pct]

/-- The first required key absent from a player record, in access order. -/
def firstMissingKey (p : PlayerDict) : Option MetricKey :=
  playerAccessOrder.find? (fun k => (p k).isNone)

/-- A concrete record missing two required keys (`progressive_passes_p90` and
`xA_p90`), all other keys present. -/
def missingTwoPlayer : PlayerDict := fun k =>
  match k with
  | .progressive_passes_p90 => none
  | .xA_p90 => none
  | _ => some 1

/-- C6 counterexample: on a record missing the two keys
`progressive_passes_p90` and `xA_p90`, the DNA-profile build fails naming only
the first missing key — not a single aggregated error naming all missing
keys. -/
theorem missing_keys_error_names_only_first :
    calculate_player_dna_vector_dict missingTwoPlayer onesMetrics =
        .error "progressive_passes_p90" ∧
    missingTwoPlayer .xA_p90 = none := ⟨rfl, rfl⟩

/-- C6 (amended): whenever a required metric key is missing from the player
record, the DNA-profile build fails with a single `KeyError` naming exactly
the first missing key in access order (not an aggregated error naming all
missing keys). -/
theorem missing_key_build_fails_with_first (p : PlayerDict) (b : Metrics)
    (k : MetricKey) (h : firstMissingKey p = some k) :
    calculate_player_dna_vector_dict p b = .error (keyName k) := by
  cases h1 : p .progressive_passes_p90 with
  | none =>
      simp [firstMissingKey, playerAccessOrder, List.find?, h1] at h
      subst h
      simp [calculate_player_dna_vector_dict, calculate_player_dna_score_dict, dGet, keyName, bind, Except.bind, pure, Except.pure, h1]
  | some v1 =>
    cases h2 : p .progressive_carries_p90 with
    | none =>
        simp [firstMissingKey, playerAccessOrder, List.find?, h1, h2] at h
        subst h
        simp [calculate_player_dna_vector_dict, calculate_player_dna_score_dict, dGet, keyName, bind, Except.bind, pure, Except.pure, h1, h2]
    | some v2 =>
      cases h3 : p .touches_att_third_p90 with
      | none =>
          simp [firstMissingKey, playerAccessOrder, List.find?, h1, h2, h3] at h
          subst h
          simp [calculate_player_dna_vector_dict, calculate_player_dna_score_dict, dGet, keyName, bind, Except.bind, pure, Except.pure, h1, h2, h3]
      | some v3 =>
        cases h4 : p .xA_p90 with
        | none =>
            simp [firstMissingKey, playerAccessOrder, List.find?, h1, h2, h3, h4] at h
            subst h
            simp [calculate_player_dna_vector_dict, calculate_player_dna_score_dict, dGet, keyName, bind, Except.bind, pure, Except.pure, h1, h2, h3, h4]
        | some v4 =>
          cases h5 : p .shot_assists_p90 with
          | none =>
              simp [firstMissingKey, playerAccessOrder, List.find?, h1, h2, h3, h4, h5] at h
              subst h
              simp [calculate_player_dna_vector_dict, calculate_player_dna_score_dict, dGet, keyName, bind, Except.bind, pure, Except.pure, h1, h2, h3, h4, h5]
          | some v5 =>
            cases h6 : p .key_passes_p90 with
            | none =>
                simp [firstMissingKey, playerAccessOrder, List.find?, h1, h2, h3, h4, h5, h6] at h
                subst h
                simp [calculate_player_dna_vector_dict, calculate_player_dna_score_dict, dGet, keyName, bind, Except.bind, pure, Except.pure, h1, h2, h3, h4, h5, h6]
            | some v6 =>
              cases h7 : p .xG_p90 with
              | none =>
                  simp [firstMissingKey, playerAccessOrder, List.find?, h1, h2, h3, h4, h5, h6, h7] at h
                  subst h
                  simp [calculate_player_dna_vector_dict, calculate_player_dna_score_dict, dGet, keyName, bind, Except.bind, pure, Except.pure, h1, h2, h3, h4, h5, h6, h7]
              | some v7 =>
                cases h8 : p .shots_p90 with
                | none =>
                    simp [firstMissingKey, playerAccessOrder, List.find?, h1, h2, h3, h4, h5, h6, h7, h8] at h
                    subst h
                    simp [calculate_player_dna_vector_dict, calculate_player_dna_score_dict, dGet, keyName, bind, Except.bind, pure, Except.pure, h1, h2, h3, h4, h5, h6, h7, h8]
                | some v8 =>
                  cases h9 : p .pressures_p90 with
                  | none =>
                      simp [firstMissingKey, playerAccessOrder, List.find?, h1, h2, h3, h4, h5, h6, h7, h8, h9] at h
                      subst h
                      simp [calculate_player_dna_vector_dict, calculate_player_dna_score_dict, dGet, keyName, bind, Except.bind, pure, Except.pure, h1, h2, h3, h4, h5, h6, h7, h8, h9]
                  | some v9 =>
                    cases h10 : p .tackles_p90 with
                    | none =>
                        simp [firstMissingKey, playerAccessOrder, List.find?, h1, h2, h3, h4, h5, h6, h7, h8, h9, h10] at h
                        subst h
                        simp [calculate_player_dna_vector_dict, calculate_player_dna_score_dict, dGet, keyName, bind, Except.bind, pure, Except.pure, h1, h2, h3, h4, h5, h6, h7, h8, h9, h10]
                    | some v10 =>
                      cases h11 : p .interceptions_p90 with
                      | none =>
                          simp [firstMissingKey, playerAccessOrder, List.find?, h1, h2, h3, h4, h5, h6, h7, h8, h9, h10, h11] at h
                          subst h
                          simp [calculate_player_dna_vector_dict, calculate_player_dna_score_dict, dGet, keyName, bind, Except.bind, pure, Except.pure, h1, h2, h3, h4, h5, h6, h7, h8, h9, h10, h11]
                      | some v11 =>
                        cases h12 : p .pass_completion_pct with
                        | none =>
                            simp [firstMissingKey, playerAccessOrder, List.find?, h1, h2, h3, h4, h5, h6, h7, h8, h9, h10, h11, h12] at h
                            subst h
                            simp [calculate_player_dna_vector_dict, calculate_player_dna_score_dict, dGet, keyName, bind, Except.bind, pure, Except.pure, h1, h2, h3, h4, h5, h6, h7, h8, h9, h10, h11, h12]
                        | some v12 =>
                          cases h13 : p .dribbles_p90 with
                          | none =>
                              simp [firstMissingKey, playerAccessOrder, List.find?, h1, h2, h3, h4, h5, h6, h7, h8, h9, h10, h11, h12, h13] at h
                              subst h
                              simp [calculate_player_dna_vector_dict, calculate_player_dna_score_dict, dGet, keyName, bind, Except.bind, pure, Except.pure, h1, h2, h3, h4, h5, h6, h7, h8, h9, h10, h11, h12, h13]
                          | some v13 =>
                            cases h14 : p .dribbles_successful_p90 with
                            | none =>
                                simp [firstMissingKey, playerAccessOrder, List.find?, h1, h2, h3, h4, h5, h6, h7, h8, h9, h10, h11, h12, h13, h14] at h
                                subst h
                                simp [calculate_player_dna_vector_dict, calculate_player_dna_score_dict, dGet, keyName, bind, Except.bind, pure, Except.pure, h1, h2, h3, h4, h5, h6, h7, h8, h9, h10, h11, h12, h13, h14]
                            | some v14 =>
                              cases h15 : p .dribble_success_pct with
                              | none =>
                                  simp [firstMissingKey, playerAccessOrder, List.find?, h1, h2, h3, h4, h5, h6, h7, h8, h9, h10, h11, h12, h13, h14, h15] at h
                                  subst h
                                  simp [calculate_player_dna_vector_dict, calculate_player_dna_score_dict, dGet, keyName, bind, Except.bind, pure, Except.pure, h1, h2, h3, h4, h5, h6, h7, h8, h9, h10, h11, h12, h13, h14, h15]
                              | some v15 =>
                                simp [firstMissingKey, playerAccessOrder, List.find?, h1, h2, h3, h4, h5, h6, h7, h8, h9, h10, h11, h12, h13, h14, h15] at h

/-- Every dimension is in the `DNA_DIMENSIONS` list. -/
lemma mem_DNA_DIMENSIONS (d : Dimension) : d ∈ DNA_DIMENSIONS := by
  cases d <;> simp [DNA_DIMENSIONS]

/-- Embedding of `identify_team_weaknesses` (lines 197-211): the dimensions
whose team score is strictly below the threshold, each paired with the gap
`threshold - score`, in `DNA_DIMENSIONS` iteration order (Python dicts keep
insertion order). -/
def identify_team_weaknesses (america : Dimension → ℚ) (threshold : ℚ) :
    List (Dimension × ℚ) :=
  DNA_DIMENSIONS.filterMap fun d =>
    if america d < threshold then some (d, threshold - america d) else none

/-- Membership in the computed weakness list is exactly a strictly
below-threshold score, with gap `threshold - score`. -/
lemma mem_identify_team_weaknesses {am : Dimension → ℚ} {t : ℚ}
    {d : Dimension} {g : ℚ} :
    (d, g) ∈ identify_team_weaknesses am t ↔ am d < t ∧ g = t - am d := by
  simp only [identify_team_weaknesses, List.mem_filterMap]
  constructor
  · rintro ⟨a, -, hf⟩
    by_cases hc : am a < t
    · rw [if_pos hc] at hf
      obtain ⟨rfl, rfl⟩ := Prod.mk.injEq .. ▸ Option.some.inj hf
      exact ⟨hc, rfl⟩
    · rw [if_neg hc] at hf
      exact absurd hf (Option.some_ne_none _).symm
  · rintro ⟨hlt, rfl⟩
    exact ⟨d, mem_DNA_DIMENSIONS d, by rw [if_pos hlt]⟩

/-- The end-to-end scenario team profile of the spec:
`pressing=85, progression=92, creation=97, finishing=98, possession=96,
dribbling=99`. -/
def exampleTeamProfile : Dimension → ℚ
  | .progression => 92
  | .creation => 97
  | .finishing => 98
  | .pressing => 85
  | .possession => 96
  | .dribbling => 99

/-- C4: `identify_team_weaknesses` returns exactly the dimensions strictly
below the threshold, mapped to the gap `threshold - score` (so a dimension
equal to the threshold is excluded); on the spec's example profile with
threshold 95 it returns precisely progression with gap 3 and pressing with
gap 10. -/
theorem identify_team_weaknesses_correct :
    (∀ (am : Dimension → ℚ) (t : ℚ) (d : Dimension) (g : ℚ),
        (d, g) ∈ identify_team_weaknesses am t ↔ am d < t ∧ g = t - am d) ∧
    identify_team_weaknesses exampleTeamProfile 95 =
      [(.progression, 3), (.pressing, 10)] := by
  refine ⟨fun am t d g => mem_identify_team_weaknesses, ?_⟩
  show List.filterMap _ _ = _
  norm_num [DNA_DIMENSIONS, List.filterMap, exampleTeamProfile]

/-- Embedding of the `total_gap_filled` accumulator of
`calculate_gap_filling_score` (lines 229-242): the sum over the weakness list
of `max 0 (player_score - team_score) * gap`. -/
def total_gap_filled (player_vector america : Dimension → ℚ)
    (weaknesses : List (Dimension × ℚ)) : ℚ :=
  (weaknesses.map fun dg => max 0 (player_vector dg.1 - america dg.1) * dg.2).sum

/-- Embedding of the `total_possible_gap` accumulator (line 243): the sum over
the weakness list of `gap * (100 - team_score)`. -/
def total_possible_gap (america : Dimension → ℚ)
    (weaknesses : List (Dimension × ℚ)) : ℚ :=
  (weaknesses.map fun dg => dg.2 * (100 - america dg.1)).sum

/-- Embedding of `calculate_gap_filling_score` (lines 214-251): 50 on an empty
weakness list; otherwise the normalized filled-gap ratio when the possible gap
is positive, 50 otherwise, finally clamped by `min (·) 100`. -/
def calculate_gap_filling_score (player_vector america : Dimension → ℚ)
    (weaknesses : List (Dimension × ℚ)) : ℚ :=
  if weaknesses = [] then 50
  else
    let filled := total_gap_filled player_vector america weaknesses
    let possible := total_possible_gap america weaknesses
    let score := if 0 < possible then filled / possible * 100 else 50
    min score 100

/-- The Gap-Filling algorithm exactly as the spec words it: accumulate
`max 0 (player_score - team_score) * gap` and `gap * (100 - team_score)`, then
return `min 100 (numerator / denominator * 100)` if the denominator is
positive, else the neutral 50; an empty weakness set gives exactly 50. -/
def gapFillingSpec (player_vector america : Dimension → ℚ)
    (weaknesses : List (Dimension × ℚ)) : ℚ :=
  let numerator :=
    (weaknesses.map fun dg => max 0 (player_vector dg.1 - america dg.1) * dg.2).sum
  let denominator :=
    (weaknesses.map fun dg => dg.2 * (100 - america dg.1)).sum
  if weaknesses = [] then 50
  else if 0 < denominator then min 100 (numerator / denominator * 100) else 50

/-- C3: `calculate_gap_filling_score` implements the spec's Gap-Filling
algorithm exactly, and on an empty weakness set it returns exactly 50 for
every player vector. -/
theorem gap_filling_refines_spec :
    (∀ (pv am : Dimension → ℚ) (ws : List (Dimension × ℚ)),
        calculate_gap_filling_score pv am ws = gapFillingSpec pv am ws) ∧
    (∀ pv am : Dimension → ℚ, calculate_gap_filling_score pv am [] = 50) := by
  constructor
  · intro pv am ws
    have hcode : calculate_gap_filling_score pv am ws =
        if ws = [] then 50
        else min (if 0 < total_possible_gap am ws then
            total_gap_filled pv am ws / total_possible_gap am ws * 100
          else 50) 100 := rfl
    have hspec : gapFillingSpec pv am ws =
        if ws = [] then 50
        else if 0 < total_possible_gap am ws then
          min 100 (total_gap_filled pv am ws / total_possible_gap am ws * 100)
        else 50 := rfl
    rw [hcode, hspec]
    by_cases hw : ws = []
    · simp [hw]
    · rw [if_neg hw, if_neg hw]
      by_cases hd : 0 < total_possible_gap am ws
      · rw [if_pos hd, if_pos hd]
        exact min_comm _ _
      · rw [if_neg hd, if_neg hd]
        norm_num
  · intro pv am
    simp [calculate_gap_filling_score]

/-- When the weakness list comes from `identify_team_weaknesses` with a
threshold at most 100, every gap is positive and every weak team score is
below 100. -/
lemma identify_gap_pos {am : Dimension → ℚ} {t : ℚ} (ht : t ≤ 100)
    {d : Dimension} {g : ℚ} (h : (d, g) ∈ identify_team_weaknesses am t) :
    0 < g ∧ am d < 100 := by
  obtain ⟨hlt, rfl⟩ := mem_identify_team_weaknesses.mp h
  exact ⟨sub_pos.mpr hlt, lt_of_lt_of_le hlt ht⟩

/-- C10: for a weakness set produced by `identify_team_weaknesses` with a
threshold at most 100, a non-empty set forces a strictly positive
`total_possible_gap` (so the 50.0 fallback at the denominator guard is
unreachable), and the gap-filling score always lies in `[0, 100]`. -/
theorem gap_filling_safe (am pv : Dimension → ℚ) (t : ℚ) (ht : t ≤ 100) :
    (identify_team_weaknesses am t ≠ [] →
        0 < total_possible_gap am (identify_team_weaknesses am t)) ∧
    0 ≤ calculate_gap_filling_score pv am (identify_team_weaknesses am t) ∧
    calculate_gap_filling_score pv am (identify_team_weaknesses am t) ≤ 100 := by
  set ws := identify_team_weaknesses am t with hws
  have hpos : ws ≠ [] → 0 < total_possible_gap am ws := by
    intro hne
    apply List.sum_pos
    · intro x hx
      simp only [List.mem_map] at hx
      obtain ⟨dg, hdg, rfl⟩ := hx
      obtain ⟨hg, hs⟩ := identify_gap_pos ht (hws ▸ hdg : (dg.1, dg.2) ∈ _)
      exact mul_pos hg (by linarith)
    · simpa using hne
  refine ⟨hpos, ?_, ?_⟩
  · by_cases hw : ws = []
    · simp [calculate_gap_filling_score, hw]
    · have hfilled : 0 ≤ total_gap_filled pv am ws := by
        apply List.sum_nonneg
        intro x hx
        simp only [List.mem_map] at hx
        obtain ⟨dg, hdg, rfl⟩ := hx
        obtain ⟨hg, -⟩ := identify_gap_pos ht (hws ▸ hdg : (dg.1, dg.2) ∈ _)
        exact mul_nonneg (le_max_left _ _) hg.le
      simp only [calculate_gap_filling_score, if_neg hw]
      by_cases hd : 0 < total_possible_gap am ws
      · rw [if_pos hd]
        exact le_min (by positivity) (by norm_num)
      · rw [if_neg hd]
        norm_num
  · by_cases hw : ws = []
    · norm_num [calculate_gap_filling_score, hw]
    · simp only [calculate_gap_filling_score, if_neg hw]
      exact min_le_right _ _

/-- Witness for C10 at the spec's example profile and threshold 95. -/
theorem gap_filling_safe_witness :
    (95:ℚ) ≤ 100 ∧
    ((identify_team_weaknesses exampleTeamProfile 95 ≠ [] →
        0 < total_possible_gap exampleTeamProfile
          (identify_team_weaknesses exampleTeamProfile 95)) ∧
      0 ≤ calculate_gap_filling_score exampleTeamProfile exampleTeamProfile
          (identify_team_weaknesses exampleTeamProfile 95) ∧
      calculate_gap_filling_score exampleTeamProfile exampleTeamProfile
          (identify_team_weaknesses exampleTeamProfile 95) ≤ 100) :=
  ⟨by norm_num,
    gap_filling_safe exampleTeamProfile exampleTeamProfile 95 (by norm_num)⟩

/-- Witness for the amended C6 at the concrete two-keys-missing record. -/
theorem missing_key_build_fails_with_first_witness :
    firstMissingKey missingTwoPlayer = some .progressive_passes_p90 ∧
    calculate_player_dna_vector_dict missingTwoPlayer onesMetrics =
      .error (keyName .progressive_passes_p90) :=
  ⟨rfl, missing_key_build_fails_with_first missingTwoPlayer onesMetrics
    .progressive_passes_p90 rfl⟩

/-- A scored player as compiled by the pipeline's STEP 4: the pass-through
identity and the composite `fit_score` the ranking stage sorts on. -/
structure ScoredPlayer where
  player_name : String
  fit_score : ℚ
deriving DecidableEq, Repr

/-- The source's `TOP_N` configuration constant. -/
def TOP_N : Nat := 20

/-- The comparison used by `sorted(results, key=lambda x: x['fit_score'],
reverse=True)`: `x` may come before `y` exactly when `x.fit_score ≥
y.fit_score` (CPython's sort is stable, and `reverse=True` preserves
stability for equal keys). -/
def fitDesc (x y : ScoredPlayer) : Bool := decide (y.fit_score ≤ x.fit_score)

/-- Embedding of line 492, `results_sorted = sorted(results, key=...,
reverse=True)`: a stable sort by descending `fit_score`. -/
def rank_players (results : List ScoredPlayer) : List ScoredPlayer :=
  results.mergeSort fitDesc

/-- Embedding of line 495, `top_recommendations = results_sorted[:TOP_N]`. -/
def top_recommendations (results : List ScoredPlayer) : List ScoredPlayer :=
  (rank_players results).take TOP_N

/-- Embedding of lines 515-516, `worst_recommendations =
results_sorted[-TOP_N:]` followed by `worst_recommendations.reverse()`:
the last `TOP_N` entries of the ranking, displayed worst first. -/
def worst_recommendations (results : List ScoredPlayer) : List ScoredPlayer :=
  ((rank_players results).drop ((rank_players results).length - TOP_N)).reverse

/-- `fitDesc` is transitive. -/
lemma fitDesc_trans : ∀ a b c : ScoredPlayer,
    fitDesc a b → fitDesc b c → fitDesc a c := by
  intro a b c hab hbc
  simp only [fitDesc, decide_eq_true_eq] at *
  exact le_trans hbc hab

/-- `fitDesc` is total. -/
lemma fitDesc_total : ∀ a b : ScoredPlayer, fitDesc a b || fitDesc b a := by
  intro a b
  simp only [fitDesc, Bool.or_eq_true, decide_eq_true_eq]
  exact le_total b.fit_score a.fit_score

/-- C5: the ranking stage is a permutation of the scored pool, sorted
consistently with `fit_score` descending; it is stable — for every exact
`fit_score` value, the ranked output restricted to that value is exactly the
input pool restricted to that value, in input order; and the top-N /
bottom-N extracts are the first and last `TOP_N` entries of this order
(the bottom extract being displayed worst first). -/
theorem ranking_correct (results : List ScoredPlayer) :
    List.Perm (rank_players results) results ∧
    (rank_players results).Pairwise (fun a b => b.fit_score ≤ a.fit_score) ∧
    (∀ v : ℚ, (rank_players results).filter (fun r => decide (r.fit_score = v)) =
        results.filter (fun r => decide (r.fit_score = v))) ∧
    top_recommendations results = (rank_players results).take TOP_N ∧
    worst_recommendations results =
      ((rank_players results).drop ((rank_players results).length - TOP_N)).reverse ∧
    List.Perm (worst_recommendations results)
      ((rank_players results).drop ((rank_players results).length - TOP_N)) := by
  refine ⟨List.mergeSort_perm results fitDesc, ?_, ?_, rfl, rfl,
    List.reverse_perm _⟩
  · have h := List.sorted_mergeSort fitDesc_trans fitDesc_total results
    exact h.imp fun {a b} hab => by
      simpa [fitDesc, decide_eq_true_eq] using hab
  · intro v
    set p : ScoredPlayer → Bool := fun r => decide (r.fit_score = v) with hp
    have hmemv : ∀ r ∈ results.filter p, r.fit_score = v := by
      intro r hr
      have := (List.mem_filter.mp hr).2
      simpa [hp] using this
    have hpair : (results.filter p).Pairwise (fun a b => fitDesc a b) := by
      apply List.pairwise_of_forall_mem_list
      intro a ha b hb
      simp only [fitDesc, decide_eq_true_eq, hmemv a ha, hmemv b hb, le_refl]
    have hsub : List.Sublist (results.filter p) (rank_players results) :=
      List.sublist_mergeSort fitDesc_trans fitDesc_total hpair
        (List.filter_sublist results)
    have hsub2 : List.Sublist (results.filter p) ((rank_players results).filter p) := by
      have := hsub.filter p
      rwa [List.filter_filter, (by
        funext a
        simp [hp, Bool.and_self] : (fun a => p a && p a) = p)] at this
    have hperm : List.Perm ((rank_players results).filter p) (results.filter p) :=
      (List.mergeSort_perm results fitDesc).filter p
    exact (hsub2.eq_of_length hperm.length_eq.symm).symm

/-- A six-entry DNA vector, the shape `np.array(list(vector.values()))`
produces for the six dimensions in `DNA_DIMENSIONS` order. -/
abbrev Vec6 : Type := Fin 6 → ℝ

/-- Dot product of two six-entry vectors. -/
noncomputable def dot6 (u v : Vec6) : ℝ := ∑ i, u i * v i

/-- Cosine similarity as computed by `sklearn.metrics.pairwise
.cosine_similarity` on two single-row matrices.  For zero-norm inputs sklearn
replaces the zero norm by one, which makes the similarity 0; under the
embedding's division-by-zero-equals-zero convention the formula below yields
the same value 0 in every zero-norm case, since the numerator is then also
determined by a zero vector or the quotient is `x / 0 = 0`. -/
noncomputable def cosine_similarity (u v : Vec6) : ℝ :=
  dot6 u v / (Real.sqrt (dot6 u u) * Real.sqrt (dot6 v v))

/-- Embedding of `calculate_dna_match_score` (lines 173-194): cosine
similarity remapped from `[-1, 1]` to `[0, 100]` via
`(similarity + 1) / 2 * 100`. -/
noncomputable def calculate_dna_match_score (player_vector america_vector : Vec6) : ℝ :=
  (cosine_similarity player_vector america_vector + 1) / 2 * 100

/-- The all-ones six-entry vector. -/
def onesVec : Vec6 := fun _ => 1

/-- The all-zero six-entry vector. -/
def zeroVec : Vec6 := fun _ => 0

/-- A vector with all entries non-negative and at least one nonzero has a
strictly positive self-dot-product. -/
lemma dot6_self_pos {u : Vec6} (hne : ∃ i, u i ≠ 0) : 0 < dot6 u u := by
  obtain ⟨i, hi⟩ := hne
  exact Finset.sum_pos' (fun j _ => mul_self_nonneg (u j))
    ⟨i, Finset.mem_univ i, mul_self_pos.mpr hi⟩

/-- C2 counterexample: with the all-zero team vector, a player vector that
equals `1 • team` (with `1 > 0`) receives a DNA match of 50, not 100 — so the
claim's consequence fails when the team vector is the zero vector. -/
theorem dna_match_zero_team_cex :
    (fun i => (1:ℝ) * zeroVec i) = zeroVec ∧ (0:ℝ) < 1 ∧
    calculate_dna_match_score zeroVec zeroVec = 50 ∧ (50:ℝ) ≠ 100 := by
  refine ⟨funext fun i => one_mul _, one_pos, ?_, by norm_num⟩
  have h0 : dot6 zeroVec zeroVec = 0 := by
    simp [dot6, zeroVec]
  simp [calculate_dna_match_score, cosine_similarity, h0]
  norm_num

/-- C2 (amended): `calculate_dna_match_score` is scale-invariant in the player
vector for every positive constant, and a player vector equal to a positive
scalar multiple of a *nonzero* team vector receives a DNA match of exactly
100. -/
theorem dna_match_scale_invariant (p a : Vec6) (c : ℝ) (hc : 0 < c) :
    calculate_dna_match_score (fun i => c * p i) a =
      calculate_dna_match_score p a ∧
    ((∃ i, a i ≠ 0) →
      calculate_dna_match_score (fun i => c * a i) a = 100) := by
  have hscale : ∀ v : Vec6, dot6 (fun i => c * v i) (fun i => c * v i)
      = c ^ 2 * dot6 v v := by
    intro v
    simp only [dot6, Finset.mul_sum]
    exact Finset.sum_congr rfl fun i _ => by ring
  have hdotl : ∀ v w : Vec6, dot6 (fun i => c * v i) w = c * dot6 v w := by
    intro v w
    simp only [dot6, Finset.mul_sum]
    exact Finset.sum_congr rfl fun i _ => by ring
  have hsqrt : ∀ v : Vec6, Real.sqrt (dot6 (fun i => c * v i) (fun i => c * v i))
      = c * Real.sqrt (dot6 v v) := by
    intro v
    rw [hscale v, Real.sqrt_mul (sq_nonneg c), Real.sqrt_sq hc.le]
  constructor
  · unfold calculate_dna_match_score cosine_similarity
    rw [hdotl p a, hsqrt p, mul_assoc,
      mul_div_mul_left (dot6 p a) _ (ne_of_gt hc)]
  · intro hne
    have hdaa : 0 < dot6 a a := dot6_self_pos hne
    unfold calculate_dna_match_score cosine_similarity
    rw [hdotl a a, hsqrt a, mul_assoc, Real.mul_self_sqrt hdaa.le,
      div_self (by positivity)]
    norm_num

/-- Witness for the amended C2 at the all-ones vector scaled by 2. -/
theorem dna_match_scale_invariant_witness :
    (0:ℝ) < 2 ∧
    (calculate_dna_match_score (fun i => 2 * onesVec i) onesVec =
        calculate_dna_match_score onesVec onesVec ∧
      ((∃ i, onesVec i ≠ 0) →
        calculate_dna_match_score (fun i => 2 * onesVec i) onesVec = 100)) :=
  ⟨two_pos, dna_match_scale_invariant onesVec onesVec 2 two_pos⟩

/-- C9: for six-entry vectors with non-negative entries, not all zero, the
cosine similarity lies in `[0, 1]`, hence the DNA match score lies in
`[50, 100]` — it never falls below the midpoint 50 for vectors built from
non-negative dimension scores. -/
theorem dna_match_bounds (p a : Vec6)
    (hp : ∀ i, 0 ≤ p i) (ha : ∀ i, 0 ≤ a i)
    (hp0 : ∃ i, p i ≠ 0) (ha0 : ∃ i, a i ≠ 0) :
    (0 ≤ cosine_similarity p a ∧ cosine_similarity p a ≤ 1) ∧
    50 ≤ calculate_dna_match_score p a ∧
    calculate_dna_match_score p a ≤ 100 := by
  have hdpp : 0 < dot6 p p := dot6_self_pos hp0
  have hdaa : 0 < dot6 a a := dot6_self_pos ha0
  have hsp : 0 < Real.sqrt (dot6 p p) := Real.sqrt_pos.mpr hdpp
  have hsa : 0 < Real.sqrt (dot6 a a) := Real.sqrt_pos.mpr hdaa
  have hD : 0 ≤ dot6 p a :=
    Finset.sum_nonneg fun i _ => mul_nonneg (hp i) (ha i)
  have hCS : (dot6 p a) ^ 2 ≤ dot6 p p * dot6 a a := by
    have h := Finset.sum_mul_sq_le_sq_mul_sq Finset.univ p a
    have hpp : dot6 p p = ∑ i, p i ^ 2 := by
      simp [dot6, sq]
    have haa : dot6 a a = ∑ i, a i ^ 2 := by
      simp [dot6, sq]
    rw [hpp, haa]
    exact h
  have hle : dot6 p a ≤ Real.sqrt (dot6 p p) * Real.sqrt (dot6 a a) := by
    calc dot6 p a = Real.sqrt ((dot6 p a) ^ 2) := (Real.sqrt_sq hD).symm
      _ ≤ Real.sqrt (dot6 p p * dot6 a a) := Real.sqrt_le_sqrt hCS
      _ = Real.sqrt (dot6 p p) * Real.sqrt (dot6 a a) :=
          Real.sqrt_mul hdpp.le _
  have hcos0 : 0 ≤ cosine_similarity p a :=
    div_nonneg hD (mul_nonneg hsp.le hsa.le)
  have hcos1 : cosine_similarity p a ≤ 1 :=
    (div_le_one (mul_pos hsp hsa)).mpr hle
  refine ⟨⟨hcos0, hcos1⟩, ?_, ?_⟩ <;>
    · unfold calculate_dna_match_score
      linarith

/-- Witness for C9 at the all-ones player and team vectors. -/
theorem dna_match_bounds_witness :
    ((∀ i, 0 ≤ onesVec i) ∧ (∃ i, onesVec i ≠ 0)) ∧
    (0 ≤ cosine_similarity onesVec onesVec ∧
        cosine_similarity onesVec onesVec ≤ 1) ∧
    50 ≤ calculate_dna_match_score onesVec onesVec ∧
    calculate_dna_match_score onesVec onesVec ≤ 100 :=
  ⟨⟨fun _ => zero_le_one, ⟨0, one_ne_zero⟩⟩,
    dna_match_bounds onesVec onesVec (fun _ => zero_le_one)
      (fun _ => zero_le_one) ⟨0, one_ne_zero⟩ ⟨0, one_ne_zero⟩⟩

end FitScore
